import Mathlib

/-!
Shallow embedding of the supply-sight-backend server (src/server.js).

The program keeps two in-memory arrays, `warehouses` and `products`, and
exposes one query resolver (`products`, called `listProducts` here after the
spec's name for the operation) and two mutation resolvers (`updateDemand`,
`transferStock`).  JavaScript numbers used by the program are integers
(GraphQL `Int`), embedded as `Int`.  Mutations throw JavaScript errors;
they are embedded as functions returning the post-call store together with
an `Except` value, so that a failed call's effect on the store is visible.
-/

namespace SupplySight

/-- Warehouse record: `{ id, name }` from the seed array in server.js. -/
structure Warehouse where
  id : String
  name : String
deriving DecidableEq

/-- Product record: `{ id, name, sku, warehouseId, stock, demand }`. -/
structure Product where
  id : String
  name : String
  sku : String
  warehouseId : String
  stock : Int
  demand : Int
deriving DecidableEq

/-- The in-memory data store: the two global arrays of server.js. -/
structure Store where
  warehouses : List Warehouse
  products : List Product
deriving DecidableEq

/-- Seed list `warehouses` (server.js lines 5-11). -/
def seedWarehouses : List Warehouse :=
  [ { id := "BLR-A", name := "Bangalore Warehouse A" },
    { id := "BLR-B", name := "Bangalore Warehouse B" },
    { id := "PNQ-C", name := "Pune Warehouse C" },
    { id := "DEL-B", name := "Delhi Warehouse B" },
    { id := "MUM-A", name := "Mumbai Warehouse A" } ]

/-- Seed list `products` (server.js lines 13-20). -/
def seedProducts : List Product :=
  [ { id := "P-1001", name := "12mm Hex Bolt", sku := "HEX-12-100", warehouseId := "BLR-A",
      stock := 180, demand := 120 },
    { id := "P-1002", name := "Steel Washer", sku := "WSR-08-500", warehouseId := "BLR-A",
      stock := 50, demand := 80 },
    { id := "P-1003", name := "M8 Nut", sku := "NUT-08-200", warehouseId := "PNQ-C",
      stock := 80, demand := 80 },
    { id := "P-1004", name := "Bearing 608ZZ", sku := "BRG-608-50", warehouseId := "DEL-B",
      stock := 24, demand := 120 },
    { id := "P-1005", name := "Steel Rod 10mm", sku := "ROD-10-300", warehouseId := "MUM-A",
      stock := 200, demand := 150 },
    { id := "P-1006", name := "Aluminum Sheet", sku := "ALU-SHT-200", warehouseId := "BLR-B",
      stock := 75, demand := 100 } ]

/-- The store at process start. -/
def seedStore : Store :=
  { warehouses := seedWarehouses, products := seedProducts }

/-- Helper `getStatus(stock, demand)` (server.js lines 23-27). -/
def getStatus (stock demand : Int) : String :=
  if stock > demand then "healthy"
  else if stock = demand then "low"
  else "critical"

/-- Helper `getWarehouseById(id)`: `warehouses.find(w => w.id === id)`
(server.js line 30).  Returns `none` for JavaScript `undefined`. -/
def getWarehouseById (s : Store) (id : String) : Option Warehouse :=
  s.warehouses.find? (fun w => w.id == id)

/-- The record the resolvers return for a product: the product's own fields
spread together with the joined `warehouse` object and the derived `status`
string.  `warehouse` is an `Option` because `Array.prototype.find` yields
`undefined` when no warehouse matches. -/
structure ProductView where
  id : String
  name : String
  sku : String
  warehouseId : String
  stock : Int
  demand : Int
  warehouse : Option Warehouse
  status : String
deriving DecidableEq

/-- The per-product map at the head of the `products` resolver
(server.js lines 96-100): join the warehouse and compute the status. -/
def toView (s : Store) (p : Product) : ProductView :=
  { id := p.id, name := p.name, sku := p.sku, warehouseId := p.warehouseId,
    stock := p.stock, demand := p.demand,
    warehouse := getWarehouseById s p.warehouseId,
    status := getStatus p.stock p.demand }

/-- JavaScript `hay.includes(needle)` on strings: `needle` occurs as a
contiguous substring of `hay`. -/
def jsIncludes (hay needle : String) : Bool :=
  (List.range (hay.toList.length + 1)).any
    (fun i => needle.toList.isPrefixOf (hay.toList.drop i))

/-- The `search` filter (server.js lines 103-109).  The guard `if (search)`
skips the filter when the field is absent or the empty string (the only
falsy strings are absent values and `""`). -/
def applySearchFilter (search : Option String) (l : List ProductView) : List ProductView :=
  match search with
  | none => l
  | some q =>
    if q = "" then l
    else l.filter (fun p =>
      jsIncludes p.name.toLower q.toLower || jsIncludes p.sku.toLower q.toLower)

/-- The `warehouseId` filter (server.js lines 111-113), with the same
truthiness guard. -/
def applyWarehouseFilter (warehouseId : Option String) (l : List ProductView) : List ProductView :=
  match warehouseId with
  | none => l
  | some wid => if wid = "" then l else l.filter (fun p => p.warehouseId == wid)

/-- The `status` filter (server.js lines 115-117), with the same truthiness
guard. -/
def applyStatusFilter (status : Option String) (l : List ProductView) : List ProductView :=
  match status with
  | none => l
  | some st => if st = "" then l else l.filter (fun p => p.status == st)

/-- The filtering pipeline of the `products` resolver: map to views, then
search filter, then warehouse filter, then status filter (server.js
lines 96-117). -/
def filteredViews (s : Store) (search warehouseId status : Option String) : List ProductView :=
  applyStatusFilter status
    (applyWarehouseFilter warehouseId
      (applySearchFilter search (s.products.map (toView s))))

/-- JavaScript `Array.prototype.slice(start, stop)` with integer arguments:
negative indices count from the end of the array, then both endpoints are
clamped to `[0, length]`. -/
def jsSlice {α : Type} (l : List α) (start stop : Int) : List α :=
  let len : Int := l.length
  let k : Int := if start < 0 then max (len + start) 0 else min start len
  let e : Int := if stop < 0 then max (len + stop) 0 else min stop len
  (l.take e.toNat).drop k.toNat

/-- PageInfo record of the connection result. -/
structure PageInfo where
  hasNextPage : Bool
  hasPreviousPage : Bool
deriving DecidableEq

/-- The `ProductConnection` result of the `products` resolver. -/
structure ProductConnection where
  items : List ProductView
  total : Nat
  pageInfo : PageInfo
deriving DecidableEq

/-- The `products` query resolver (server.js lines 92-132), named after the
spec's `listProducts`.  `page` defaults to 0 and `limit` to 100; `items` is
`filtered.slice(page, page + limit)`; `hasNextPage` is
`page + limit < total` and `hasPreviousPage` is `page > 0`. -/
def listProducts (s : Store) (search warehouseId status : Option String)
    (pageOpt limitOpt : Option Int) : ProductConnection :=
  let page := pageOpt.getD 0
  let limit := limitOpt.getD 100
  let filtered := filteredViews s search warehouseId status
  let total := filtered.length
  { items := jsSlice filtered page (page + limit),
    total := total,
    pageInfo := { hasNextPage := decide (page + limit < (total : Int)),
                  hasPreviousPage := decide (0 < page) } }

/-- Error taxonomy of the two mutations.  Each constructor carries the data
interpolated into the thrown `Error` message. -/
inductive MutError where
  | productNotFound (productId : String)
  | invalidSource (fromWarehouse : String)
  | warehouseNotFound (toWarehouse : String)
  | insufficientStock (quantity stock : Int)
deriving DecidableEq

/-- The message string of each thrown `Error` in server.js. -/
def MutError.message : MutError → String
  | .productNotFound pid => s!"Product with id {pid} not found"
  | .invalidSource fw => s!"Product is not currently in warehouse {fw}"
  | .warehouseNotFound tw => s!"Warehouse {tw} not found"
  | .insufficientStock q st => s!"Cannot transfer {q} items. Only {st} available in stock"

/-- Model of `products.findIndex(p => p.id === productId)` followed by the
access `products[productIndex]`: the index of and the first element whose
`id` matches, or `none` when `findIndex` returns -1. -/
def findWithIdx (ps : List Product) (pid : String) : Option (Nat × Product) :=
  match ps with
  | [] => none
  | p :: rest =>
    if p.id = pid then some (0, p)
    else (findWithIdx rest pid).map (fun ip => (ip.1 + 1, ip.2))

/-- The `updateDemand` mutation (server.js lines 162-176).  Returns the
store after the call (unchanged when the call throws) and either the thrown
error or the returned product record.  On success the product at the found
index gets `demand` overwritten, and the returned record is built from the
already-updated product, the joined warehouse and
`getStatus(products[productIndex].stock, demand)`. -/
def updateDemand (s : Store) (productId : String) (demand : Int) :
    Store × Except MutError ProductView :=
  match findWithIdx s.products productId with
  | none => (s, Except.error (MutError.productNotFound productId))
  | some (i, p) =>
    let p2 : Product := { p with demand := demand }
    let s2 : Store := { s with products := s.products.set i p2 }
    (s2, Except.ok
      { id := p2.id, name := p2.name, sku := p2.sku, warehouseId := p2.warehouseId,
        stock := p2.stock, demand := p2.demand,
        warehouse := getWarehouseById s2 p2.warehouseId,
        status := getStatus p2.stock demand })

/-- The `transferStock` mutation (server.js lines 178-212): look the product
up, validate `fromWarehouse` against the current `warehouseId`, validate
that `toWarehouse` exists, validate `quantity > stock` (insufficient stock),
and only then write `warehouseId = toWarehouse` and `stock = quantity`.
The returned record is built from the updated product, the destination
warehouse and `getStatus(quantity, product.demand)`. -/
def transferStock (s : Store) (productId fromWarehouse toWarehouse : String)
    (quantity : Int) : Store × Except MutError ProductView :=
  match findWithIdx s.products productId with
  | none => (s, Except.error (MutError.productNotFound productId))
  | some (i, p) =>
    if p.warehouseId ≠ fromWarehouse then
      (s, Except.error (MutError.invalidSource fromWarehouse))
    else if (getWarehouseById s toWarehouse).isNone then
      (s, Except.error (MutError.warehouseNotFound toWarehouse))
    else if p.stock < quantity then
      (s, Except.error (MutError.insufficientStock quantity p.stock))
    else
      let p2 : Product := { p with warehouseId := toWarehouse, stock := quantity }
      let s2 : Store := { s with products := s.products.set i p2 }
      (s2, Except.ok
        { id := p2.id, name := p2.name, sku := p2.sku, warehouseId := p2.warehouseId,
          stock := p2.stock, demand := p2.demand,
          warehouse := getWarehouseById s2 toWarehouse,
          status := getStatus quantity p.demand })

/-- States of the store reachable from the seed data through mutation calls
with any integer arguments the interface accepts. -/
inductive Reachable : Store → Prop
  | seed : Reachable seedStore
  | update (s : Store) (pid : String) (d : Int) :
      Reachable s → Reachable (updateDemand s pid d).1
  | transfer (s : Store) (pid fw tw : String) (q : Int) :
      Reachable s → Reachable (transferStock s pid fw tw q).1

/-- States reachable from the seed data through mutation calls whose integer
argument (the new demand, or the transferred quantity) is non-negative. -/
inductive ReachableNN : Store → Prop
  | seed : ReachableNN seedStore
  | update (s : Store) (pid : String) (d : Int) (hd : 0 ≤ d) :
      ReachableNN s → ReachableNN (updateDemand s pid d).1
  | transfer (s : Store) (pid fw tw : String) (q : Int) (hq : 0 ≤ q) :
      ReachableNN s → ReachableNN (transferStock s pid fw tw q).1

/-- Decidable form of the non-negativity invariant on a store: every
product's stock and demand are non-negative. -/
def storeNonNeg (s : Store) : Bool :=
  s.products.all (fun p => decide (0 ≤ p.stock) && decide (0 ≤ p.demand))

/-- Decidable form of the referential invariant on a store: every product's
`warehouseId` resolves to an existing warehouse. -/
def storeWarehousesResolve (s : Store) : Bool :=
  s.products.all (fun p => (getWarehouseById s p.warehouseId).isSome)

/-- True exactly when a mutation call threw (its `Except` result is an
error). -/
def isError {ε α : Type} : Except ε α → Bool
  | Except.error _ => true
  | Except.ok _ => false

/-! Helper lemmas about the embedding. -/

theorem mem_of_getElem?_some {α : Type} {l : List α} {n : Nat} {a : α}
    (h : l[n]? = some a) : a ∈ l := by
  obtain ⟨hn, rfl⟩ := List.getElem?_eq_some.mp h
  exact List.getElem_mem hn

theorem findWithIdx_eq_none_iff (ps : List Product) (pid : String) :
    findWithIdx ps pid = none ↔ ∀ p ∈ ps, p.id ≠ pid := by
  induction ps with
  | nil => simp [findWithIdx]
  | cons p rest ih =>
    simp only [findWithIdx, List.mem_cons]
    by_cases h : p.id = pid
    · simp [h]
    · simp [h, ih]

theorem find?_eq_findWithIdx_snd (ps : List Product) (pid : String) :
    ps.find? (fun p => p.id == pid) = (findWithIdx ps pid).map Prod.snd := by
  induction ps with
  | nil => rfl
  | cons p rest ih =>
    by_cases h : p.id = pid
    · simp [findWithIdx, List.find?_cons, h]
    · have hb : (p.id == pid) = false := by simpa using h
      simp only [findWithIdx, List.find?_cons, if_neg h, hb]
      rw [ih, Option.map_map]
      rfl

theorem findWithIdx_eq_some (ps : List Product) (pid : String) (i : Nat) (p : Product)
    (h : findWithIdx ps pid = some (i, p)) : ps[i]? = some p ∧ p.id = pid := by
  induction ps generalizing i with
  | nil => simp [findWithIdx] at h
  | cons q rest ih =>
    simp only [findWithIdx] at h
    by_cases hq : q.id = pid
    · rw [if_pos hq] at h
      obtain ⟨rfl, rfl⟩ : 0 = i ∧ q = p := by
        have := Option.some.inj h
        exact ⟨congrArg Prod.fst this, congrArg Prod.snd this⟩
      exact ⟨List.getElem?_cons_zero, hq⟩
    · rw [if_neg hq] at h
      cases hfind : findWithIdx rest pid with
      | none => rw [hfind] at h; simp at h
      | some jp =>
        obtain ⟨j, r⟩ := jp
        rw [hfind] at h
        simp only [Option.map_some'] at h
        obtain ⟨hj, hr⟩ : j + 1 = i ∧ r = p := by
          have := Option.some.inj h
          exact ⟨congrArg Prod.fst this, congrArg Prod.snd this⟩
        subst hj; subst hr
        obtain ⟨h1, h2⟩ := ih j hfind
        exact ⟨by simpa [List.getElem?_cons_succ] using h1, h2⟩

theorem getWarehouseById_isNone_iff (s : Store) (tw : String) :
    (getWarehouseById s tw).isNone = true ↔ ∀ w ∈ s.warehouses, w.id ≠ tw := by
  simp [getWarehouseById, Option.isNone_iff_eq_none, List.find?_eq_none]

theorem getWarehouseById_isSome_iff (s : Store) (tw : String) :
    (getWarehouseById s tw).isSome = true ↔ ∃ w ∈ s.warehouses, w.id = tw := by
  simp [getWarehouseById, List.find?_isSome]

/-- C5: for all integers stock and demand, `getStatus stock demand` is exactly
one of "healthy", "low", "critical"; it is "healthy" precisely when
stock > demand, "low" precisely when stock = demand, "critical" precisely
when stock < demand, and in particular `getStatus s s = "low"` for every s.
The function is total (a Lean function into `String`) with no error case. -/
theorem getStatus_trichotomy (s d : Int) :
    (getStatus s d = "healthy" ↔ d < s) ∧
    (getStatus s d = "low" ↔ s = d) ∧
    (getStatus s d = "critical" ↔ s < d) ∧
    (getStatus s d = "healthy" ∨ getStatus s d = "low" ∨ getStatus s d = "critical") ∧
    getStatus d d = "low" := by
  have hHL : ("healthy" : String) ≠ "low" := by decide
  have hHC : ("healthy" : String) ≠ "critical" := by decide
  have hLC : ("low" : String) ≠ "critical" := by decide
  unfold getStatus
  split_ifs with h1 h2 h3 h4 h5 h6 h7 <;> simp_all <;> omega

/-- C10: an empty-string filter value behaves exactly as an absent filter:
for each of search, warehouseId and status, passing `some ""` yields the
same `ProductConnection` as passing `none`, for every store, every value of
the other filters and every pagination input. -/
theorem listProducts_empty_string_filters (s : Store) (se who st : Option String)
    (pg lim : Option Int) :
    (listProducts s (some "") who st pg lim = listProducts s none who st pg lim) ∧
    (listProducts s se (some "") st pg lim = listProducts s se none st pg lim) ∧
    (listProducts s se who (some "") pg lim = listProducts s se who none pg lim) := by
  refine ⟨?_, ?_, ?_⟩ <;>
    simp [listProducts, filteredViews, applySearchFilter, applyWarehouseFilter,
      applyStatusFilter]

/-- C9: with limit 2 over the 6-item unfiltered seed set, the queries at
successive offsets 0, 2, 4 return contiguous slices whose concatenation is
exactly the filtered sequence (no gaps), the filtered sequence has no
duplicates (so the slices are pairwise disjoint: a partition), and
hasNextPage at offsets 0, 2, 4 is true, true, false, which is exactly
page + limit < total for total = 6. -/
theorem pagination_partition_seed :
    (listProducts seedStore none none none (some 0) (some 2)).items ++
      (listProducts seedStore none none none (some 2) (some 2)).items ++
      (listProducts seedStore none none none (some 4) (some 2)).items =
      filteredViews seedStore none none none ∧
    (filteredViews seedStore none none none).Nodup ∧
    (listProducts seedStore none none none (some 0) (some 2)).total = 6 ∧
    (listProducts seedStore none none none (some 0) (some 2)).pageInfo.hasNextPage = true ∧
    (listProducts seedStore none none none (some 2) (some 2)).pageInfo.hasNextPage = true ∧
    (listProducts seedStore none none none (some 4) (some 2)).pageInfo.hasNextPage = false ∧
    ((0 : Int) + 2 < 6 ∧ (2 : Int) + 2 < 6 ∧ ¬((4 : Int) + 2 < 6)) := by
  decide

/-- C3: a mutation call that throws leaves the store entirely unchanged —
both for updateDemand and for transferStock, every validation precedes
every write, so the store returned by a failing call is the input store. -/
theorem mutation_failure_leaves_store (s : Store) (pid pid2 fw tw : String) (d q : Int) :
    (isError (updateDemand s pid d).2 = true → (updateDemand s pid d).1 = s) ∧
    (isError (transferStock s pid2 fw tw q).2 = true → (transferStock s pid2 fw tw q).1 = s) := by
  constructor
  · unfold updateDemand
    cases h : findWithIdx s.products pid with
    | none => intro _; rfl
    | some ip =>
      obtain ⟨i, p⟩ := ip
      intro hE
      simp [isError] at hE
  · unfold transferStock
    cases h : findWithIdx s.products pid2 with
    | none => intro _; rfl
    | some ip =>
      obtain ⟨i, p⟩ := ip
      dsimp only
      split_ifs with h1 h2 h3
      · intro _; rfl
      · intro _; rfl
      · intro _; rfl
      · intro hE
        simp [isError] at hE

/-- Witness for C3: a concrete updateDemand call on an unknown product id
and a concrete transferStock call with a stale source warehouse both leave
the seed store unchanged. -/
theorem mutation_failure_leaves_store_witness :
    (updateDemand seedStore "P-9999" 10).1 = seedStore ∧
    (transferStock seedStore "P-1001" "PNQ-C" "BLR-B" 1).1 = seedStore :=
  ⟨(mutation_failure_leaves_store seedStore "P-9999" "P-1001" "PNQ-C" "BLR-B" 10 1).1
      (by decide),
   (mutation_failure_leaves_store seedStore "P-9999" "P-1001" "PNQ-C" "BLR-B" 10 1).2
      (by decide)⟩

/-- C1: when the product is found, its current warehouseId equals
fromWarehouse, toWarehouse names an existing warehouse and the quantity does
not exceed the current stock, transferStock overwrites the product's
warehouseId with toWarehouse and its stock with exactly the quantity (not
stock minus quantity), leaves demand unchanged, and returns the product
joined with the destination warehouse and with status
`getStatus quantity demand` for the unchanged demand. -/
theorem transferStock_success_spec (s : Store) (pid fw tw : String) (q : Int)
    (i : Nat) (p : Product) (w : Warehouse)
    (hfind : findWithIdx s.products pid = some (i, p))
    (hsrc : p.warehouseId = fw)
    (hdst : getWarehouseById s tw = some w)
    (hq : q ≤ p.stock) :
    transferStock s pid fw tw q =
      ({ s with products := s.products.set i { p with warehouseId := tw, stock := q } },
       Except.ok
         { id := p.id, name := p.name, sku := p.sku, warehouseId := tw, stock := q,
           demand := p.demand, warehouse := some w, status := getStatus q p.demand }) := by
  unfold transferStock
  rw [hfind]
  dsimp only
  rw [if_neg (by simp [hsrc]), if_neg (by simp [hdst]), if_neg (not_lt.mpr hq)]
  simp only [getWarehouseById] at hdst ⊢
  rw [hdst]

/-- Witness for C1: the spec's concrete example, transferring 100 units of
P-1001 from BLR-A to BLR-B on the seed store. -/
theorem transferStock_success_spec_witness :
    transferStock seedStore "P-1001" "BLR-A" "BLR-B" 100 =
      ({ seedStore with
          products := seedStore.products.set 0
            { id := "P-1001", name := "12mm Hex Bolt", sku := "HEX-12-100",
              warehouseId := "BLR-B", stock := 100, demand := 120 } },
       Except.ok
         { id := "P-1001", name := "12mm Hex Bolt", sku := "HEX-12-100",
           warehouseId := "BLR-B", stock := 100, demand := 120,
           warehouse := some { id := "BLR-B", name := "Bangalore Warehouse B" },
           status := getStatus 100 120 }) :=
  transferStock_success_spec seedStore "P-1001" "BLR-A" "BLR-B" 100 0
    { id := "P-1001", name := "12mm Hex Bolt", sku := "HEX-12-100",
      warehouseId := "BLR-A", stock := 180, demand := 120 }
    { id := "BLR-B", name := "Bangalore Warehouse B" }
    (by decide) rfl (by decide) (by decide)

/-- C7: updateDemand on a found product overwrites only that product's
demand field: the returned pair is the store with exactly that one list
entry replaced by the same product with the new demand, together with the
product joined with its (unchanged) warehouse and status
`getStatus stock newDemand`; the warehouse list and every other product
entry are unchanged. -/
theorem updateDemand_frame (s : Store) (pid : String) (d : Int) (i : Nat) (p : Product)
    (hfind : findWithIdx s.products pid = some (i, p)) :
    updateDemand s pid d =
      ({ s with products := s.products.set i { p with demand := d } },
       Except.ok
         { id := p.id, name := p.name, sku := p.sku, warehouseId := p.warehouseId,
           stock := p.stock, demand := d,
           warehouse := getWarehouseById s p.warehouseId,
           status := getStatus p.stock d }) ∧
    (updateDemand s pid d).1.warehouses = s.warehouses ∧
    (updateDemand s pid d).1.products[i]? = some { p with demand := d } ∧
    ∀ j : Nat, j ≠ i → (updateDemand s pid d).1.products[j]? = s.products[j]? := by
  have hE : updateDemand s pid d =
      ({ s with products := s.products.set i { p with demand := d } },
       Except.ok
         { id := p.id, name := p.name, sku := p.sku, warehouseId := p.warehouseId,
           stock := p.stock, demand := d,
           warehouse := getWarehouseById s p.warehouseId,
           status := getStatus p.stock d }) := by
    unfold updateDemand
    rw [hfind]
    rfl
  have hlen : i < s.products.length := by
    have := (findWithIdx_eq_some s.products pid i p hfind).1
    exact (List.getElem?_eq_some.mp this).1
  refine ⟨hE, ?_, ?_, ?_⟩
  · rw [hE]
  · rw [hE]
    exact List.getElem?_set_self (by simpa using hlen)
  · intro j hj
    rw [hE]
    exact List.getElem?_set_ne (fun hij => hj hij.symm)

/-- Witness for C7: the spec's concrete example, updateDemand("P-1002", 40)
on the seed store, with the frame conjunct instantiated at index 0. -/
theorem updateDemand_frame_witness :
    updateDemand seedStore "P-1002" 40 =
      ({ seedStore with
          products := seedStore.products.set 1
            { id := "P-1002", name := "Steel Washer", sku := "WSR-08-500",
              warehouseId := "BLR-A", stock := 50, demand := 40 } },
       Except.ok
         { id := "P-1002", name := "Steel Washer", sku := "WSR-08-500",
           warehouseId := "BLR-A", stock := 50, demand := 40,
           warehouse := getWarehouseById seedStore "BLR-A",
           status := getStatus 50 40 }) ∧
    (updateDemand seedStore "P-1002" 40).1.products[0]? = seedStore.products[0]? := by
  have h := updateDemand_frame seedStore "P-1002" 40 1
    { id := "P-1002", name := "Steel Washer", sku := "WSR-08-500",
      warehouseId := "BLR-A", stock := 50, demand := 80 } (by decide)
  exact ⟨h.1, h.2.2.2 0 (by decide)⟩

/-- C2: transferStock fails if and only if one of the four conditions holds,
checked in this order: no product has the given id (product NotFound); the
first matching product's current warehouseId differs from fromWarehouse
(InvalidSource); no warehouse has id toWarehouse (warehouse NotFound); the
quantity exceeds the product's current stock (InsufficientStock).  When none
of these holds the call succeeds. -/
theorem transferStock_error_taxonomy (s : Store) (pid fw tw : String) (q : Int) :
    ((transferStock s pid fw tw q).2 = Except.error (MutError.productNotFound pid) ↔
      ∀ p ∈ s.products, p.id ≠ pid) ∧
    ((transferStock s pid fw tw q).2 = Except.error (MutError.invalidSource fw) ↔
      ∃ p, s.products.find? (fun x => x.id == pid) = some p ∧ p.warehouseId ≠ fw) ∧
    ((transferStock s pid fw tw q).2 = Except.error (MutError.warehouseNotFound tw) ↔
      ∃ p, s.products.find? (fun x => x.id == pid) = some p ∧ p.warehouseId = fw ∧
        ∀ w ∈ s.warehouses, w.id ≠ tw) ∧
    ((∃ st, (transferStock s pid fw tw q).2 = Except.error (MutError.insufficientStock q st)) ↔
      ∃ p, s.products.find? (fun x => x.id == pid) = some p ∧ p.warehouseId = fw ∧
        (∃ w ∈ s.warehouses, w.id = tw) ∧ p.stock < q) ∧
    (isError (transferStock s pid fw tw q).2 = false ↔
      ∃ p, s.products.find? (fun x => x.id == pid) = some p ∧ p.warehouseId = fw ∧
        (∃ w ∈ s.warehouses, w.id = tw) ∧ q ≤ p.stock) := by
  rw [find?_eq_findWithIdx_snd]
  unfold transferStock
  cases hfind : findWithIdx s.products pid with
  | none =>
    have hnone := (findWithIdx_eq_none_iff s.products pid).mp hfind
    refine ⟨?_, ?_, ?_, ?_, ?_⟩
    · simpa using hnone
    · simp
    · simp
    · simp
    · simp [isError]
  | some ip =>
    obtain ⟨i, p⟩ := ip
    have hsome := findWithIdx_eq_some s.products pid i p hfind
    have hmem : p ∈ s.products := mem_of_getElem?_some hsome.1
    have hpid : p.id = pid := hsome.2
    dsimp only
    split_ifs with h1 h2 h3
    · -- InvalidSource branch
      refine ⟨?_, ?_, ?_, ?_, ?_⟩
      · exact iff_of_false (by simp) (fun hall => hall p hmem hpid)
      · exact iff_of_true rfl ⟨p, by simp, h1⟩
      · refine iff_of_false (by simp) ?_
        rintro ⟨x, hx, hxw, -⟩
        simp only [Option.map_some', Option.some.injEq] at hx
        exact h1 (hx ▸ hxw)
      · refine iff_of_false (by simp) ?_
        rintro ⟨x, hx, hxw, -⟩
        simp only [Option.map_some', Option.some.injEq] at hx
        exact h1 (hx ▸ hxw)
      · refine iff_of_false (by simp [isError]) ?_
        rintro ⟨x, hx, hxw, -⟩
        simp only [Option.map_some', Option.some.injEq] at hx
        exact h1 (hx ▸ hxw)
    · -- warehouse NotFound branch
      have hfw : p.warehouseId = fw := not_ne_iff.mp h1
      have hnores : ∀ w ∈ s.warehouses, w.id ≠ tw :=
        (getWarehouseById_isNone_iff s tw).mp h2
      refine ⟨?_, ?_, ?_, ?_, ?_⟩
      · exact iff_of_false (by simp) (fun hall => hall p hmem hpid)
      · refine iff_of_false (by simp) ?_
        rintro ⟨x, hx, hxw⟩
        simp only [Option.map_some', Option.some.injEq] at hx
        exact hxw (hx ▸ hfw)
      · exact iff_of_true rfl ⟨p, by simp, hfw, hnores⟩
      · refine iff_of_false (by simp) ?_
        rintro ⟨x, hx, -, ⟨w, hwmem, hwid⟩, -⟩
        exact hnores w hwmem hwid
      · refine iff_of_false (by simp [isError]) ?_
        rintro ⟨x, hx, -, ⟨w, hwmem, hwid⟩, -⟩
        exact hnores w hwmem hwid
    · -- InsufficientStock branch
      have hfw : p.warehouseId = fw := not_ne_iff.mp h1
      have hres : ∃ w ∈ s.warehouses, w.id = tw := by
        rcases ho : getWarehouseById s tw with _ | w
        · exact absurd (by simp [ho]) h2
        · exact (getWarehouseById_isSome_iff s tw).mp (by simp [ho])
      refine ⟨?_, ?_, ?_, ?_, ?_⟩
      · exact iff_of_false (by simp) (fun hall => hall p hmem hpid)
      · refine iff_of_false (by simp) ?_
        rintro ⟨x, hx, hxw⟩
        simp only [Option.map_some', Option.some.injEq] at hx
        exact hxw (hx ▸ hfw)
      · refine iff_of_false (by simp) ?_
        rintro ⟨x, hx, -, hall⟩
        obtain ⟨w, hwmem, hwid⟩ := hres
        exact hall w hwmem hwid
      · refine iff_of_true ⟨p.stock, rfl⟩ ⟨p, by simp, hfw, hres, h3⟩
      · refine iff_of_false (by simp [isError]) ?_
        rintro ⟨x, hx, -, -, hq⟩
        simp only [Option.map_some', Option.some.injEq] at hx
        exact absurd h3 (not_lt.mpr (hx ▸ hq))
    · -- success branch
      have hfw : p.warehouseId = fw := not_ne_iff.mp h1
      have hres : ∃ w ∈ s.warehouses, w.id = tw := by
        rcases ho : getWarehouseById s tw with _ | w
        · exact absurd (by simp [ho]) h2
        · exact (getWarehouseById_isSome_iff s tw).mp (by simp [ho])
      have hq : q ≤ p.stock := not_lt.mp h3
      refine ⟨?_, ?_, ?_, ?_, ?_⟩
      · exact iff_of_false (by simp) (fun hall => hall p hmem hpid)
      · refine iff_of_false (by simp) ?_
        rintro ⟨x, hx, hxw⟩
        simp only [Option.map_some', Option.some.injEq] at hx
        exact hxw (hx ▸ hfw)
      · refine iff_of_false (by simp) ?_
        rintro ⟨x, hx, -, hall⟩
        obtain ⟨w, hwmem, hwid⟩ := hres
        exact hall w hwmem hwid
      · refine iff_of_false (by simp) ?_
        rintro ⟨x, hx, -, -, hst⟩
        simp only [Option.map_some', Option.some.injEq] at hx
        exact absurd (hx ▸ hst) (not_lt.mpr hq)
      · exact iff_of_true (by simp [isError]) ⟨p, by simp, hfw, hres, hq⟩

theorem storeNonNeg_iff (s : Store) :
    storeNonNeg s = true ↔ ∀ p ∈ s.products, 0 ≤ p.stock ∧ 0 ≤ p.demand := by
  simp [storeNonNeg]

theorem updateDemand_preserves_nonneg (s : Store) (pid : String) (d : Int) (hd : 0 ≤ d)
    (h : storeNonNeg s = true) : storeNonNeg (updateDemand s pid d).1 = true := by
  rw [storeNonNeg_iff] at h ⊢
  unfold updateDemand
  cases hfind : findWithIdx s.products pid with
  | none => exact h
  | some ip =>
    obtain ⟨i, p⟩ := ip
    dsimp only
    intro x hx
    rcases List.mem_or_eq_of_mem_set hx with hmem | rfl
    · exact h x hmem
    · have hp := findWithIdx_eq_some s.products pid i p hfind
      have hpm : p ∈ s.products := mem_of_getElem?_some hp.1
      exact ⟨(h p hpm).1, hd⟩

theorem transferStock_preserves_nonneg (s : Store) (pid fw tw : String) (q : Int)
    (hq : 0 ≤ q) (h : storeNonNeg s = true) :
    storeNonNeg (transferStock s pid fw tw q).1 = true := by
  rw [storeNonNeg_iff] at h ⊢
  unfold transferStock
  cases hfind : findWithIdx s.products pid with
  | none => exact h
  | some ip =>
    obtain ⟨i, p⟩ := ip
    dsimp only
    split_ifs with h1 h2 h3
    · exact h
    · exact h
    · exact h
    · intro x hx
      rcases List.mem_or_eq_of_mem_set hx with hmem | rfl
      · exact h x hmem
      · have hp := findWithIdx_eq_some s.products pid i p hfind
        have hpm : p ∈ s.products := mem_of_getElem?_some hp.1
        exact ⟨hq, (h p hpm).2⟩

/-- C4 counterexample: the non-negativity invariant is not preserved for
arbitrary integer arguments the interface accepts — one updateDemand call
with demand -1 reaches a store whose product P-1001 has negative demand. -/
theorem nonneg_invariant_counterexample :
    ∃ s : Store, Reachable s ∧ storeNonNeg s = false :=
  ⟨(updateDemand seedStore "P-1001" (-1)).1,
   Reachable.update seedStore "P-1001" (-1) Reachable.seed, by decide⟩

/-- C4 amended: every product's stock and demand are non-negative in the
seed state, and this is preserved by every updateDemand call whose new
demand is non-negative and every transferStock call whose quantity is
non-negative (the code itself never validates the sign of these
arguments). -/
theorem nonneg_invariant (s : Store) (h : ReachableNN s) : storeNonNeg s = true := by
  induction h with
  | seed => decide
  | update s pid d hd hr ih => exact updateDemand_preserves_nonneg s pid d hd ih
  | transfer s pid fw tw q hq hr ih => exact transferStock_preserves_nonneg s pid fw tw q hq ih

/-- Witness for C4's amended theorem: the state after the spec's example
call updateDemand("P-1002", 40) satisfies the non-negativity invariant. -/
theorem nonneg_invariant_witness :
    storeNonNeg (updateDemand seedStore "P-1002" 40).1 = true :=
  nonneg_invariant _ (ReachableNN.update seedStore "P-1002" 40 (by decide) ReachableNN.seed)

theorem storeWarehousesResolve_iff (s : Store) :
    storeWarehousesResolve s = true ↔
      ∀ p ∈ s.products, (getWarehouseById s p.warehouseId).isSome = true := by
  simp [storeWarehousesResolve]

theorem updateDemand_preserves_resolve (s : Store) (pid : String) (d : Int)
    (h : storeWarehousesResolve s = true) :
    storeWarehousesResolve (updateDemand s pid d).1 = true := by
  rw [storeWarehousesResolve_iff] at h ⊢
  unfold updateDemand
  cases hfind : findWithIdx s.products pid with
  | none => exact h
  | some ip =>
    obtain ⟨i, p⟩ := ip
    dsimp only
    intro x hx
    rcases List.mem_or_eq_of_mem_set hx with hmem | rfl
    · exact h x hmem
    · have hp := findWithIdx_eq_some s.products pid i p hfind
      have hpm : p ∈ s.products := mem_of_getElem?_some hp.1
      exact h p hpm

theorem transferStock_preserves_resolve (s : Store) (pid fw tw : String) (q : Int)
    (h : storeWarehousesResolve s = true) :
    storeWarehousesResolve (transferStock s pid fw tw q).1 = true := by
  rw [storeWarehousesResolve_iff] at h ⊢
  unfold transferStock
  cases hfind : findWithIdx s.products pid with
  | none => exact h
  | some ip =>
    obtain ⟨i, p⟩ := ip
    dsimp only
    split_ifs with h1 h2 h3
    · exact h
    · exact h
    · exact h
    · intro x hx
      rcases List.mem_or_eq_of_mem_set hx with hmem | rfl
      · exact h x hmem
      · rcases ho : getWarehouseById s tw with _ | w
        · exact absurd (by simp [ho]) h2
        · simpa [getWarehouseById] using congrArg Option.isSome ho

/-- C8: in every state reachable from the seed data through any sequence of
mutation calls, every product's warehouseId resolves to an existing
warehouse — the seed data satisfies it, updateDemand touches neither
warehouseIds nor the warehouse list, and transferStock validates the
destination warehouse before writing warehouseId. -/
theorem warehouse_ref_invariant (s : Store) (h : Reachable s) :
    storeWarehousesResolve s = true := by
  induction h with
  | seed => decide
  | update s pid d hr ih => exact updateDemand_preserves_resolve s pid d ih
  | transfer s pid fw tw q hr ih => exact transferStock_preserves_resolve s pid fw tw q ih

/-- Witness for C8: the state after the concrete successful transfer of
P-1001 to BLR-B still satisfies the referential invariant. -/
theorem warehouse_ref_invariant_witness :
    storeWarehousesResolve (transferStock seedStore "P-1001" "BLR-A" "BLR-B" 100).1 = true :=
  warehouse_ref_invariant _
    (Reachable.transfer seedStore "P-1001" "BLR-A" "BLR-B" 100 Reachable.seed)

theorem jsSlice_eq_drop_take {α : Type} (l : List α) (a b : Int)
    (ha : 0 ≤ a) (hb : 0 ≤ b) :
    jsSlice l a (a + b) = (l.drop a.toNat).take b.toNat := by
  simp only [jsSlice]
  rw [if_neg (not_lt.mpr ha), if_neg (not_lt.mpr (by omega : (0 : Int) ≤ a + b))]
  apply List.ext_getElem?
  intro n
  rw [List.getElem?_drop, List.getElem?_take, List.getElem?_take, List.getElem?_drop]
  by_cases h1 : (min a ((l.length : Int))).toNat + n < (min (a + b) ((l.length : Int))).toNat
  · rw [if_pos h1]
    by_cases h2 : n < b.toNat
    · rw [if_pos h2]
      have he : (min a ((l.length : Int))).toNat + n = a.toNat + n := by omega
      rw [he]
    · exfalso; omega
  · rw [if_neg h1]
    by_cases h2 : n < b.toNat
    · rw [if_pos h2]
      have he : l.length ≤ a.toNat + n := by omega
      exact (List.getElem?_eq_none he).symm
    · rw [if_neg h2]

/-- C6 counterexample: the pagination contract fails for a pagination input
the interface accepts.  At page 0 and limit -1 on the seed store, an items
list of length at most limit would have to be empty (under the clamped
reading, the slice at offset 0 of length -1 is empty), but the code's
`slice(0, -1)` treats the negative end as an offset from the end and
returns the first five products. -/
theorem listProducts_pagination_counterexample :
    (listProducts seedStore none none none (some 0) (some (-1))).items ≠ [] ∧
    ¬ (((listProducts seedStore none none none (some 0) (some (-1))).items.length : Int)
        ≤ -1) := by
  decide

/-- C6 amended: for every filter combination and every non-negative
pagination input (negative page or limit values instead follow JavaScript's
end-relative slice semantics), listProducts returns total equal to the
number of products passing the filters before slicing, items equal to the
contiguous slice of the filtered sequence starting at offset page with
length at most limit (empty when page is at least total), hasNextPage true
exactly when page + limit < total, and hasPreviousPage true exactly when
page > 0. -/
theorem listProducts_pagination_spec (s : Store) (se who st : Option String)
    (page limit : Int) (hp : 0 ≤ page) (hl : 0 ≤ limit) :
    (listProducts s se who st (some page) (some limit)).total =
      (filteredViews s se who st).length ∧
    (listProducts s se who st (some page) (some limit)).items =
      ((filteredViews s se who st).drop page.toNat).take limit.toNat ∧
    (((filteredViews s se who st).length : Int) ≤ page →
      (listProducts s se who st (some page) (some limit)).items = []) ∧
    ((listProducts s se who st (some page) (some limit)).pageInfo.hasNextPage = true ↔
      page + limit < ((filteredViews s se who st).length : Int)) ∧
    ((listProducts s se who st (some page) (some limit)).pageInfo.hasPreviousPage = true ↔
      0 < page) := by
  have hitems : (listProducts s se who st (some page) (some limit)).items =
      ((filteredViews s se who st).drop page.toNat).take limit.toNat := by
    simp only [listProducts, Option.getD_some]
    exact jsSlice_eq_drop_take (filteredViews s se who st) page limit hp hl
  refine ⟨rfl, hitems, ?_, ?_, ?_⟩
  · intro hge
    rw [hitems]
    rw [List.drop_eq_nil_of_le (by omega)]
    exact List.take_nil
  · simp [listProducts]
  · simp [listProducts]

/-- Witness for C6's amended theorem: the concrete query at page 2, limit 2
with no filters on the seed store satisfies the total and items clauses. -/
theorem listProducts_pagination_spec_witness :
    (listProducts seedStore none none none (some 2) (some 2)).total =
      (filteredViews seedStore none none none).length ∧
    (listProducts seedStore none none none (some 2) (some 2)).items =
      ((filteredViews seedStore none none none).drop (2 : Int).toNat).take (2 : Int).toNat :=
  ⟨(listProducts_pagination_spec seedStore none none none 2 2 (by decide) (by decide)).1,
   (listProducts_pagination_spec seedStore none none none 2 2 (by decide) (by decide)).2.1⟩

end SupplySight
